import Mathlib

/-!
Verification of the approval-gated cross-post engine of `src/bot.py`
(`CrossPostBot`): tracked-post registry, reaction gate, expiry sweep and
multi-destination dispatch.

Shallow embedding conventions:
* Python `dict`s are association lists `List (Nat × α)`; `dict` insertion
  replaces the binding of an existing key, lookup is first-match.
* Python `set`s of user ids are duplicate-free `List Nat` (the source only
  inserts after a membership test, so insertion is a guarded cons).
* Times (`datetime.now()`, `timestamp`) are `Nat` minutes; `timedelta`
  subtraction `now - created` is `Nat` subtraction.  Truncation at zero is
  faithful here: both source comparisons (`time_diff <= timedelta(hours=2)`
  and `time_diff > timedelta(hours=2)`) give the same answer for a negative
  Python timedelta as for the truncated `0`.
* Fallible external calls (`context.bot.get_file`, the per-platform publish
  clients) are fault-injection parameters: `some e` means the call raises an
  exception whose `str` is `e`; exception flow is `Except`.
* Events (tracked message, reaction callback, sweeper iteration) are
  processed sequentially, matching the source's single-threaded
  `Application` setup (default blocking handlers, no `concurrent_updates`).
-/

namespace CrossPost

/-! ### Association-list maps (Python dicts) -/

def lookupA {α : Type} : List (Nat × α) → Nat → Option α
  | [], _ => none
  | p :: rest, k => if p.1 = k then some p.2 else lookupA rest k

def eraseKey {α : Type} (k : Nat) : List (Nat × α) → List (Nat × α)
  | [] => []
  | p :: rest => if p.1 = k then eraseKey k rest else p :: eraseKey k rest

/-- `d[k] = v` on a Python dict: replace the binding of `k` if present. -/
def insertA {α : Type} (k : Nat) (v : α) (l : List (Nat × α)) : List (Nat × α) :=
  (k, v) :: eraseKey k l

/-- Drop every entry whose key is in `ex` (the sweep's `del tracked[k]`). -/
def dropKeys {α : Type} (ex : List Nat) : List (Nat × α) → List (Nat × α)
  | [] => []
  | p :: rest => if p.1 ∈ ex then dropKeys ex rest else p :: dropKeys ex rest

/-- Drop every entry whose value is in `ex` (the sweep's prompt-map cleanup). -/
def dropVals (ex : List Nat) : List (Nat × Nat) → List (Nat × Nat)
  | [] => []
  | p :: rest => if p.2 ∈ ex then dropVals ex rest else p :: dropVals ex rest

/-! ### Data model (`CrossPostBot.__init__`, `handle_message`) -/

/-- Source constant `REQUIRED_REACTIONS = 1`. -/
def REQUIRED_REACTIONS : Nat := 1

/-- Source constant `EXPIRATION_HOURS = 2`. -/
def EXPIRATION_HOURS : Nat := 2

/-- `timedelta(hours=EXPIRATION_HOURS)` with times modelled in minutes. -/
def EXPIRATION_WINDOW : Nat := 60 * EXPIRATION_HOURS

inductive MediaKind | photo | video | animation
deriving DecidableEq, Repr

/-- The `message_data['media']` sub-dict: a kind and an opaque `file_id`. -/
structure Media where
  kind : MediaKind
  file_id : Nat
deriving DecidableEq, Repr

/-- One value of `self.tracked_messages` (`message_data` in `handle_message`). -/
structure MessageData where
  message_id : Nat
  chat_id : Nat
  text : String
  media : Option Media
  reactions : List Nat
  timestamp : Nat
  posted : Bool
deriving DecidableEq, Repr

/-- Registry state of `CrossPostBot`: `tracked_messages`, `posted_messages`,
`reaction_messages` (prompt message id → original message id). -/
structure BotState where
  tracked : List (Nat × MessageData)
  posted_messages : List Nat
  reaction_messages : List (Nat × Nat)
deriving DecidableEq, Repr

def initialState : BotState := ⟨[], [], []⟩

/-- An inbound Telegram message as `handle_message` sees it.  `text = none`
covers both an absent `update.message` and an absent `message.text`;
`photo` is the list of size variants (`message.photo`), of which the source
takes the last; `prompt_id` is the id Telegram assigns to the reply prompt
(`sent_message.message_id`); `now` is `datetime.now()` at handling time. -/
structure MsgIn where
  message_id : Nat
  chat_id : Nat
  text : Option String
  photo : List Nat
  video : Option Nat
  animation : Option Nat
  prompt_id : Nat
  now : Nat
deriving DecidableEq, Repr

/-- Contiguous-substring occurrence over character lists. -/
def hasSubstr (pat : List Char) : List Char → Bool
  | [] => pat.isPrefixOf []
  | c :: rest => pat.isPrefixOf (c :: rest) || hasSubstr pat rest

/-- `"#topost" in text` (substring containment). -/
def containsTopost (t : String) : Bool :=
  hasSubstr "#topost".data t.data

/-- The `if message.photo: ... elif message.video: ... elif message.animation:`
cascade building `message_data['media']`. -/
def mediaOf (m : MsgIn) : Option Media :=
  match m.photo.getLast? with
  | some fid => some ⟨MediaKind.photo, fid⟩
  | none =>
    match m.video with
    | some fid => some ⟨MediaKind.video, fid⟩
    | none =>
      match m.animation with
      | some fid => some ⟨MediaKind.animation, fid⟩
      | none => none

/-- The fresh `message_data` dict built by `handle_message` from text `t`. -/
def candidateData (m : MsgIn) (t : String) : MessageData :=
  { message_id := m.message_id
    chat_id := m.chat_id
    text := (t.replace "#topost" "").trim
    media := mediaOf m
    reactions := []
    timestamp := m.now
    posted := false }

/-- `CrossPostBot.handle_message`: guard on text presence and the `#topost`
tag, then store the candidate and the prompt mapping. -/
def handle_message (s : BotState) (m : MsgIn) : BotState :=
  match m.text with
  | none => s
  | some t =>
    if t = "" then s
    else if containsTopost t = false then s
    else
      { s with
        tracked := insertA m.message_id (candidateData m t) s.tracked
        reaction_messages := insertA m.prompt_id m.message_id s.reaction_messages }

/-! ### Reaction gate (`CrossPostBot.handle_callback`) -/

/-- Observable effects of one `handle_callback` run.  `keyError` marks the
uncaught `KeyError` the source would raise at
`self.tracked_messages[original_msg_id]` when the prompt mapping points to an
untracked id; `editedPrompt` is the `Needed: n more reactions` edit (with the
shown `remaining`); `dispatched` is the original message id handed to
`cross_post`; `editedDone` is the `Message has been cross-posted!` edit. -/
structure CallbackEffects where
  keyError : Bool
  editedPrompt : Option Int
  dispatched : Option Nat
  editedDone : Bool
deriving DecidableEq, Repr

def noEffects : CallbackEffects :=
  { keyError := false, editedPrompt := none, dispatched := none, editedDone := false }

/-- `CrossPostBot.handle_callback` at reaction-prompt id `rmid`, reacting user
`uid`, wall-clock time `now`.  Returns the new registry state and the
observable effects; the `cross_post` call itself only reads `message_data`
and sends notifications, so the registry semantics records just its
occurrence. -/
def handle_callback (s : BotState) (rmid uid now : Nat) : BotState × CallbackEffects :=
  match lookupA s.reaction_messages rmid with
  | none => (s, noEffects)
  | some orig =>
    match lookupA s.tracked orig with
    | none => (s, { noEffects with keyError := true })
    | some md =>
      if uid ∈ md.reactions then (s, noEffects)
      else
        let reactions1 := uid :: md.reactions
        let reaction_count := reactions1.length
        let remaining : Int := (REQUIRED_REACTIONS : Int) - (reaction_count : Int)
        let promptEdit : Option Int := if 0 < remaining then some remaining else none
        let md1 := { md with reactions := reactions1 }
        let s1 := { s with tracked := insertA orig md1 s.tracked }
        if REQUIRED_REACTIONS ≤ reaction_count ∧ md.posted = false ∧
            orig ∉ s.posted_messages then
          if now - md.timestamp ≤ EXPIRATION_WINDOW then
            let md2 := { md1 with posted := true }
            ({ s1 with
                tracked := insertA orig md2 s1.tracked
                posted_messages := orig :: s1.posted_messages },
             { keyError := false, editedPrompt := promptEdit,
               dispatched := some orig, editedDone := true })
          else (s1, { noEffects with editedPrompt := promptEdit })
        else (s1, { noEffects with editedPrompt := promptEdit })

/-! ### Expiry sweep (`CrossPostBot.cleanup_expired`, one loop iteration) -/

/-- The `expired_messages` list the sweep collects at time `now`. -/
def expiredIds (now : Nat) : List (Nat × MessageData) → List Nat
  | [] => []
  | p :: rest =>
    if EXPIRATION_WINDOW < now - p.2.timestamp then p.1 :: expiredIds now rest
    else expiredIds now rest

/-- One iteration of the `cleanup_expired` loop body at time `now`: delete
every expired tracked message and every prompt mapping pointing at one. -/
def cleanup_expired (now : Nat) (s : BotState) : BotState :=
  { s with
    tracked := dropKeys (expiredIds now s.tracked) s.tracked
    reaction_messages := dropVals (expiredIds now s.tracked) s.reaction_messages }

/-! ### Dispatch (`CrossPostBot.cross_post`, `_initialize_platforms`) -/

inductive Platform | farcaster | twitter | bluesky
deriving DecidableEq, Repr

def Platform.name : Platform → String
  | .farcaster => "Farcaster"
  | .twitter => "Twitter"
  | .bluesky => "Bluesky"

/-- `PLATFORMS_CONFIG`. -/
structure PlatformsConfig where
  twitter : Bool
  bluesky : Bool
  farcaster : Bool
deriving DecidableEq, Repr

/-- Which of `self.twitter`, `self.bluesky`, `self.client` are non-`None`. -/
structure Clients where
  twitter : Bool
  bluesky : Bool
  farcaster : Bool
deriving DecidableEq, Repr

/-- `CrossPostBot._initialize_platforms`: each client exists iff its flag is
set, except Farcaster whose `Warpcast` construction may itself fail
(`farcasterInitOk`), in which case `self.client = None`. -/
def initPlatforms (cfg : PlatformsConfig) (farcasterInitOk : Bool) : Clients :=
  { twitter := cfg.twitter
    bluesky := cfg.bluesky
    farcaster := cfg.farcaster && farcasterInitOk }

/-- Fault injection for one dispatch: `resolveFault = some e` means
`context.bot.get_file` raises with message `e`; each platform field set to
`some e` means that platform's publish block raises with message `e`. -/
structure DispatchEnv where
  resolveFault : Option String
  farcasterFault : Option String
  twitterFault : Option String
  blueskyFault : Option String
deriving DecidableEq, Repr

def DispatchEnv.fault (env : DispatchEnv) : Platform → Option String
  | .farcaster => env.farcasterFault
  | .twitter => env.twitterFault
  | .bluesky => env.blueskyFault

/-- Python's `s[:100]` on the exception text. -/
def pyTake (n : Nat) (s : String) : String := String.mk (s.data.take n)

/-- The `platforms_status` line appended for platform `p`. -/
def statusLine (p : Platform) (fault : Option String) : String :=
  match fault with
  | none => "✅ " ++ p.name ++ ": Successfully posted"
  | some e => "❌ " ++ p.name ++ ": Error - " ++ pyTake 100 e

/-- A platform is attempted iff its config flag is set and its client object
is non-`None` (`if PLATFORMS_CONFIG[...] and self....`). -/
def platformEnabled (cfg : PlatformsConfig) (cl : Clients) : Platform → Bool
  | .farcaster => cfg.farcaster && cl.farcaster
  | .twitter => cfg.twitter && cl.twitter
  | .bluesky => cfg.bluesky && cl.bluesky

/-- The enabled platforms in the source's fixed attempt order. -/
def enabledPlatforms (cfg : PlatformsConfig) (cl : Clients) : List Platform :=
  [Platform.farcaster, Platform.twitter, Platform.bluesky].filter (platformEnabled cfg cl)

/-- Result of one dispatch: the texts handed to `notify_group` in order, the
platforms actually invoked, and the `platforms_status` list. -/
structure DispatchResult where
  notifications : List String
  attempted : List Platform
  statuses : List String
deriving DecidableEq, Repr

def startNotification : String := "🚀 Initiating crosspost to platforms..."

def generalErrorNotification (e : String) : String :=
  "❌ General crosspost error: " ++ pyTake 100 e

def reportNotification (statuses : List String) : String :=
  "📊 Crosspost Report:\n\n" ++ String.intercalate "\n" statuses

/-- The `try:` body of `CrossPostBot.cross_post`.  Media resolution
(`get_file`) runs first and may raise; each platform block then runs behind
its own `try/except`, so a platform fault only produces a failure status
line.  `notify_group` swallows its own exceptions (source lines 240-243), so
notifying never raises. -/
def cross_post_try (cfg : PlatformsConfig) (cl : Clients) (env : DispatchEnv)
    (md : MessageData) : Except String DispatchResult :=
  match md.media, env.resolveFault with
  | some _, some e => Except.error e
  | _, _ =>
    let status0 : List String := []
    let att0 : List Platform := []
    let step1 :=
      if cfg.farcaster && cl.farcaster then
        (status0 ++ [statusLine Platform.farcaster env.farcasterFault],
         att0 ++ [Platform.farcaster])
      else (status0, att0)
    let step2 :=
      if cfg.twitter && cl.twitter then
        (step1.1 ++ [statusLine Platform.twitter env.twitterFault],
         step1.2 ++ [Platform.twitter])
      else step1
    let step3 :=
      if cfg.bluesky && cl.bluesky then
        (step2.1 ++ [statusLine Platform.bluesky env.blueskyFault],
         step2.2 ++ [Platform.bluesky])
      else step2
    Except.ok
      { notifications := [startNotification, reportNotification step3.1]
        attempted := step3.2
        statuses := step3.1 }

/-- `CrossPostBot.cross_post`: the `try` body with its boundary
`except Exception`, which converts any escaped fault into the single generic
failure notification. -/
def cross_post (cfg : PlatformsConfig) (cl : Clients) (env : DispatchEnv)
    (md : MessageData) : DispatchResult :=
  match cross_post_try cfg cl env md with
  | Except.ok r => r
  | Except.error e =>
    { notifications := [generalErrorNotification e], attempted := [], statuses := [] }

/-! ### Sequential event semantics -/

/-- One external stimulus: an inbound message, a reaction callback, or one
sweeper iteration. -/
inductive Event
  | msg (m : MsgIn)
  | cb (rmid uid now : Nat)
  | sweep (now : Nat)
deriving DecidableEq, Repr

def eventTime : Event → Nat
  | .msg m => m.now
  | .cb _ _ now => now
  | .sweep now => now

/-- Does this event (re-)register a candidate under tracked id `p`? -/
def registersMsgId (p : Nat) : Event → Bool
  | .msg m => decide (m.message_id = p)
  | _ => false

/-- Process one event; the second component is the id handed to `cross_post`
when the gate fires. -/
def step (s : BotState) (e : Event) : BotState × Option Nat :=
  match e with
  | .msg m => (handle_message s m, none)
  | .cb rmid uid now =>
    let r := handle_callback s rmid uid now
    (r.1, r.2.dispatched)
  | .sweep now => (cleanup_expired now s, none)

def runState (s : BotState) : List Event → BotState
  | [] => s
  | e :: es => runState (step s e).1 es

/-- All `cross_post` invocations (by original message id) along a run. -/
def runDispatches (s : BotState) : List Event → List Nat
  | [] => []
  | e :: es =>
    (match (step s e).2 with
     | some p => [p]
     | none => []) ++ runDispatches (step s e).1 es

/-- How many times `cross_post` is invoked for post `p` along `es` from `s`. -/
def dispatchCount (s : BotState) (es : List Event) (p : Nat) : Nat :=
  (runDispatches s es).count p

/-- The prompt-map soundness invariant: every original-message id stored in
`reaction_messages` is a key of `tracked_messages`. -/
def promptInv (s : BotState) : Prop :=
  ∀ q ∈ s.reaction_messages, (lookupA s.tracked q.2).isSome = true

/-! ### Concrete scenario states used by counterexamples and witnesses -/

/-- A tagged inbound message (id 1, prompt 2, created at time 0). -/
def msg1 : MsgIn :=
  { message_id := 1, chat_id := 9, text := some "hi #topost", photo := [],
    video := none, animation := none, prompt_id := 2, now := 0 }

/-- A second tagged inbound message reusing tracked id 1 (prompt 3, time 50). -/
def msg1Again : MsgIn :=
  { message_id := 1, chat_id := 9, text := some "bye #topost", photo := [],
    video := none, animation := none, prompt_id := 3, now := 50 }

/-- A tracked post already published (one approval, created at time 0). -/
def mdPublished : MessageData :=
  { message_id := 1, chat_id := 9, text := "hi", media := none,
    reactions := [7], timestamp := 0, posted := true }

/-- A pending tracked post created at time 0, no approvals yet. -/
def mdPending : MessageData :=
  { message_id := 4, chat_id := 9, text := "yo", media := none,
    reactions := [], timestamp := 0, posted := false }

/-- Registry holding the published post 1 (prompt 2) and pending post 4
(prompt 5). -/
def statePub : BotState :=
  { tracked := [(1, mdPublished), (4, mdPending)]
    posted_messages := [1]
    reaction_messages := [(2, 1), (5, 4)] }

/-- A pending post carrying a photo reference. -/
def mdWithMedia : MessageData :=
  { message_id := 1, chat_id := 9, text := "hi", media := some ⟨MediaKind.photo, 3⟩,
    reactions := [7], timestamp := 0, posted := false }

/-- All three platforms configured and initialized. -/
def cfgAll : PlatformsConfig := { twitter := true, bluesky := true, farcaster := true }

def clAll : Clients := { twitter := true, bluesky := true, farcaster := true }

/-- A pending post with one prior approval. -/
def mdPendingReacted : MessageData :=
  { message_id := 4, chat_id := 9, text := "yo", media := none,
    reactions := [7], timestamp := 0, posted := false }

/-- Registry holding only the once-approved pending post 4 under prompt 5. -/
def statePend : BotState :=
  { tracked := [(4, mdPendingReacted)], posted_messages := [], reaction_messages := [(5, 4)] }

/-- Registry holding only the fresh pending post 4 under prompt 5. -/
def statePendFresh : BotState :=
  { tracked := [(4, mdPending)], posted_messages := [], reaction_messages := [(5, 4)] }

/-- Twitter alone failing, with reason `timeout`. -/
def envTwitterTimeout : DispatchEnv :=
  { resolveFault := none, farcasterFault := none, twitterFault := some "timeout",
    blueskyFault := none }

/-- Media resolution failing with reason `boom`, publishers healthy. -/
def envResolveBoom : DispatchEnv :=
  { resolveFault := some "boom", farcasterFault := none, twitterFault := none,
    blueskyFault := none }

/-- Follow-up events for the expired-post scenario: two later approvals of
post 4 and one sweep, all strictly after its expiry window. -/
def lateEvents : List Event := [Event.cb 5 8 130, Event.sweep 300, Event.cb 5 9 301]

end CrossPost

namespace CrossPost

/-! ### Lemmas: association-list maps -/

theorem mem_eraseKey {α : Type} {k : Nat} {l : List (Nat × α)} {q : Nat × α}
    (h : q ∈ eraseKey k l) : q ∈ l := by
  induction l with
  | nil => simp [eraseKey] at h
  | cons p rest ih =>
    by_cases hp : p.1 = k
    · rw [eraseKey, if_pos hp] at h
      exact List.mem_cons_of_mem _ (ih h)
    · rw [eraseKey, if_neg hp] at h
      rcases List.mem_cons.mp h with h | h
      · exact h ▸ List.mem_cons_self _ _
      · exact List.mem_cons_of_mem _ (ih h)

theorem lookupA_eraseKey_ne {α : Type} {k k' : Nat} (hne : k ≠ k')
    (l : List (Nat × α)) : lookupA (eraseKey k l) k' = lookupA l k' := by
  induction l with
  | nil => rfl
  | cons p rest ih =>
    by_cases hp : p.1 = k
    · rw [eraseKey, if_pos hp, lookupA, if_neg (hp ▸ hne), ih]
    · rw [eraseKey, if_neg hp, lookupA, lookupA]
      by_cases hq : p.1 = k'
      · rw [if_pos hq, if_pos hq]
      · rw [if_neg hq, if_neg hq, ih]

theorem lookupA_insertA {α : Type} (k k' : Nat) (v : α) (l : List (Nat × α)) :
    lookupA (insertA k v l) k' = if k = k' then some v else lookupA l k' := by
  by_cases h : k = k'
  · rw [insertA, lookupA, if_pos h, if_pos h]
  · rw [insertA, lookupA, if_neg h, if_neg h, lookupA_eraseKey_ne h]

theorem lookupA_insertA_self {α : Type} (k : Nat) (v : α) (l : List (Nat × α)) :
    lookupA (insertA k v l) k = some v := by
  rw [lookupA_insertA, if_pos rfl]

theorem lookupA_insertA_ne {α : Type} {k k' : Nat} (hne : k ≠ k') (v : α)
    (l : List (Nat × α)) : lookupA (insertA k v l) k' = lookupA l k' := by
  rw [lookupA_insertA, if_neg hne]

theorem isSome_lookupA_insertA {α : Type} {k' : Nat} {l : List (Nat × α)} (k : Nat) (v : α)
    (h : (lookupA l k').isSome = true) : (lookupA (insertA k v l) k').isSome = true := by
  by_cases hk : k = k'
  · rw [lookupA_insertA, if_pos hk]; rfl
  · rw [lookupA_insertA_ne hk]; exact h

theorem lookupA_mem {α : Type} {l : List (Nat × α)} {k : Nat} {v : α}
    (h : lookupA l k = some v) : (k, v) ∈ l := by
  induction l with
  | nil => simp [lookupA] at h
  | cons p rest ih =>
    by_cases hp : p.1 = k
    · rw [lookupA, if_pos hp] at h
      have : p = (k, v) := by
        cases p
        simp only [Option.some.injEq] at h
        simp_all
      exact this ▸ List.mem_cons_self _ _
    · rw [lookupA, if_neg hp] at h
      exact List.mem_cons_of_mem _ (ih h)

theorem mem_dropKeys {α : Type} (ex : List Nat) (l : List (Nat × α)) (q : Nat × α) :
    q ∈ dropKeys ex l ↔ q ∈ l ∧ q.1 ∉ ex := by
  induction l with
  | nil => simp [dropKeys]
  | cons p rest ih =>
    by_cases hp : p.1 ∈ ex
    · rw [dropKeys, if_pos hp, ih]
      constructor
      · rintro ⟨h1, h2⟩; exact ⟨List.mem_cons_of_mem _ h1, h2⟩
      · rintro ⟨h1, h2⟩
        rcases List.mem_cons.mp h1 with h | h
        · exact absurd (h ▸ hp) h2
        · exact ⟨h, h2⟩
    · rw [dropKeys, if_neg hp]
      constructor
      · intro h
        rcases List.mem_cons.mp h with h | h
        · exact ⟨h ▸ List.mem_cons_self _ _, h ▸ hp⟩
        · rcases ih.mp h with ⟨h1, h2⟩
          exact ⟨List.mem_cons_of_mem _ h1, h2⟩
      · rintro ⟨h1, h2⟩
        rcases List.mem_cons.mp h1 with h | h
        · exact h ▸ List.mem_cons_self _ _
        · exact List.mem_cons_of_mem _ (ih.mpr ⟨h, h2⟩)

theorem mem_dropVals (ex : List Nat) (l : List (Nat × Nat)) (q : Nat × Nat) :
    q ∈ dropVals ex l ↔ q ∈ l ∧ q.2 ∉ ex := by
  induction l with
  | nil => simp [dropVals]
  | cons p rest ih =>
    by_cases hp : p.2 ∈ ex
    · rw [dropVals, if_pos hp, ih]
      constructor
      · rintro ⟨h1, h2⟩; exact ⟨List.mem_cons_of_mem _ h1, h2⟩
      · rintro ⟨h1, h2⟩
        rcases List.mem_cons.mp h1 with h | h
        · exact absurd (h ▸ hp) h2
        · exact ⟨h, h2⟩
    · rw [dropVals, if_neg hp]
      constructor
      · intro h
        rcases List.mem_cons.mp h with h | h
        · exact ⟨h ▸ List.mem_cons_self _ _, h ▸ hp⟩
        · rcases ih.mp h with ⟨h1, h2⟩
          exact ⟨List.mem_cons_of_mem _ h1, h2⟩
      · rintro ⟨h1, h2⟩
        rcases List.mem_cons.mp h1 with h | h
        · exact h ▸ List.mem_cons_self _ _
        · exact List.mem_cons_of_mem _ (ih.mpr ⟨h, h2⟩)

theorem lookupA_dropKeys {α : Type} (ex : List Nat) (l : List (Nat × α)) (k : Nat) :
    lookupA (dropKeys ex l) k = if k ∈ ex then none else lookupA l k := by
  induction l with
  | nil => cases Classical.em (k ∈ ex) with
    | inl h => rw [dropKeys, if_pos h]; rfl
    | inr h => rw [dropKeys, if_neg h]
  | cons p rest ih =>
    by_cases hp : p.1 ∈ ex
    · rw [dropKeys, if_pos hp, ih]
      by_cases hk : k ∈ ex
      · rw [if_pos hk, if_pos hk]
      · have : p.1 ≠ k := fun h => hk (h ▸ hp)
        rw [if_neg hk, if_neg hk, lookupA, if_neg this]
    · rw [dropKeys, if_neg hp, lookupA]
      by_cases hq : p.1 = k
      · have hk : k ∉ ex := hq ▸ hp
        rw [if_pos hq, if_neg hk, lookupA, if_pos hq]
      · rw [if_neg hq, ih]
        by_cases hk : k ∈ ex
        · rw [if_pos hk, if_pos hk]
        · rw [if_neg hk, if_neg hk, lookupA, if_neg hq]

theorem mem_expiredIds {now p : Nat} {l : List (Nat × MessageData)} :
    p ∈ expiredIds now l ↔
      ∃ pr, pr ∈ l ∧ pr.1 = p ∧ EXPIRATION_WINDOW < now - pr.2.timestamp := by
  induction l with
  | nil => simp [expiredIds]
  | cons q rest ih =>
    by_cases hq : EXPIRATION_WINDOW < now - q.2.timestamp
    · rw [expiredIds, if_pos hq]
      constructor
      · intro h
        rcases List.mem_cons.mp h with h | h
        · exact ⟨q, List.mem_cons_self _ _, h.symm, hq⟩
        · rcases ih.mp h with ⟨pr, h1, h2, h3⟩
          exact ⟨pr, List.mem_cons_of_mem _ h1, h2, h3⟩
      · rintro ⟨pr, h1, h2, h3⟩
        rcases List.mem_cons.mp h1 with h | h
        · exact (h ▸ h2) ▸ List.mem_cons_self _ _
        · exact List.mem_cons_of_mem _ (ih.mpr ⟨pr, h, h2, h3⟩)
    · rw [expiredIds, if_neg hq, ih]
      constructor
      · rintro ⟨pr, h1, h2, h3⟩
        exact ⟨pr, List.mem_cons_of_mem _ h1, h2, h3⟩
      · rintro ⟨pr, h1, h2, h3⟩
        rcases List.mem_cons.mp h1 with h | h
        · exact absurd (h ▸ h3) hq
        · exact ⟨pr, h, h2, h3⟩

theorem keys_nodup_eq {α : Type} {l : List (Nat × α)} (hN : (l.map Prod.fst).Nodup)
    {pr pr' : Nat × α} (h1 : pr ∈ l) (h2 : pr' ∈ l) (hk : pr.1 = pr'.1) : pr = pr' := by
  induction l with
  | nil => cases h1
  | cons p rest ih =>
    rw [List.map_cons, List.nodup_cons] at hN
    rcases List.mem_cons.mp h1 with h1 | h1 <;> rcases List.mem_cons.mp h2 with h2 | h2
    · rw [h1, h2]
    · exact absurd (List.mem_map_of_mem Prod.fst h2) (by rw [← hk, h1] at *; exact fun c => hN.1 c)
    · exact absurd (List.mem_map_of_mem Prod.fst h1) (by rw [hk, h2] at *; exact fun c => hN.1 c)
    · exact ih hN.2 h1 h2

end CrossPost

namespace CrossPost

theorem handle_callback_no_prompt {s : BotState} {rmid uid now : Nat}
    (h : lookupA s.reaction_messages rmid = none) :
    handle_callback s rmid uid now = (s, noEffects) := by
  unfold handle_callback
  rw [h]

theorem handle_callback_no_tracked {s : BotState} {rmid uid now p : Nat}
    (h1 : lookupA s.reaction_messages rmid = some p)
    (h2 : lookupA s.tracked p = none) :
    handle_callback s rmid uid now = (s, { noEffects with keyError := true }) := by
  simp only [handle_callback, h1, h2]

theorem handle_callback_duplicate {s : BotState} {rmid uid now p : Nat} {md : MessageData}
    (h1 : lookupA s.reaction_messages rmid = some p)
    (h2 : lookupA s.tracked p = some md)
    (h3 : uid ∈ md.reactions) :
    handle_callback s rmid uid now = (s, noEffects) := by
  simp only [handle_callback, h1, h2, if_pos h3]

/-- With `REQUIRED_REACTIONS = 1`, `remaining = 1 - reaction_count` is never
positive after the insertion, so the `Needed: n more` edit never fires. -/
theorem remaining_not_pos (uid : Nat) (l : List Nat) :
    ¬ (0 < (REQUIRED_REACTIONS : Int) - ((uid :: l).length : Int)) := by
  simp only [REQUIRED_REACTIONS, List.length_cons]
  push_cast
  omega

theorem handle_callback_publish {s : BotState} {rmid uid now p : Nat} {md : MessageData}
    (h1 : lookupA s.reaction_messages rmid = some p)
    (h2 : lookupA s.tracked p = some md)
    (h3 : uid ∉ md.reactions)
    (hc : REQUIRED_REACTIONS ≤ (uid :: md.reactions).length ∧ md.posted = false ∧
      p ∉ s.posted_messages)
    (ht : now - md.timestamp ≤ EXPIRATION_WINDOW) :
    handle_callback s rmid uid now =
      ({ s with
          tracked := insertA p { md with reactions := uid :: md.reactions, posted := true }
            (insertA p { md with reactions := uid :: md.reactions } s.tracked)
          posted_messages := p :: s.posted_messages },
       { keyError := false, editedPrompt := none, dispatched := some p,
         editedDone := true }) := by
  simp only [handle_callback, h1, h2, if_neg h3, if_pos hc, if_pos ht,
    if_neg (remaining_not_pos uid md.reactions)]

theorem handle_callback_late {s : BotState} {rmid uid now p : Nat} {md : MessageData}
    (h1 : lookupA s.reaction_messages rmid = some p)
    (h2 : lookupA s.tracked p = some md)
    (h3 : uid ∉ md.reactions)
    (hc : REQUIRED_REACTIONS ≤ (uid :: md.reactions).length ∧ md.posted = false ∧
      p ∉ s.posted_messages)
    (ht : ¬ now - md.timestamp ≤ EXPIRATION_WINDOW) :
    handle_callback s rmid uid now =
      ({ s with tracked := insertA p { md with reactions := uid :: md.reactions } s.tracked },
       noEffects) := by
  simp only [handle_callback, h1, h2, if_neg h3, if_pos hc, if_neg ht,
    if_neg (remaining_not_pos uid md.reactions)]
  rfl

theorem handle_callback_no_gate {s : BotState} {rmid uid now p : Nat} {md : MessageData}
    (h1 : lookupA s.reaction_messages rmid = some p)
    (h2 : lookupA s.tracked p = some md)
    (h3 : uid ∉ md.reactions)
    (hc : ¬ (REQUIRED_REACTIONS ≤ (uid :: md.reactions).length ∧ md.posted = false ∧
      p ∉ s.posted_messages)) :
    handle_callback s rmid uid now =
      ({ s with tracked := insertA p { md with reactions := uid :: md.reactions } s.tracked },
       noEffects) := by
  simp only [handle_callback, h1, h2, if_neg h3, if_neg hc,
    if_neg (remaining_not_pos uid md.reactions)]
  rfl

end CrossPost

namespace CrossPost

/-- Anything `handle_callback` reports as dispatched was a tracked, pending,
not-yet-posted post whose prompt resolved, approved by a fresh user inside
the expiry window; and the dispatch marks it in `posted_messages`. -/
theorem handle_callback_dispatched {s : BotState} {rmid uid now p : Nat}
    (h : (handle_callback s rmid uid now).2.dispatched = some p) :
    ∃ md, lookupA s.reaction_messages rmid = some p ∧ lookupA s.tracked p = some md ∧
      uid ∉ md.reactions ∧ md.posted = false ∧ p ∉ s.posted_messages ∧
      now - md.timestamp ≤ EXPIRATION_WINDOW ∧
      (handle_callback s rmid uid now).1.posted_messages = p :: s.posted_messages := by
  cases hl1 : lookupA s.reaction_messages rmid with
  | none => rw [handle_callback_no_prompt hl1] at h; simp [noEffects] at h
  | some orig =>
    cases hl2 : lookupA s.tracked orig with
    | none => rw [handle_callback_no_tracked hl1 hl2] at h; simp [noEffects] at h
    | some md =>
      by_cases hm : uid ∈ md.reactions
      · rw [handle_callback_duplicate hl1 hl2 hm] at h; simp [noEffects] at h
      · by_cases hc : REQUIRED_REACTIONS ≤ (uid :: md.reactions).length ∧
            md.posted = false ∧ orig ∉ s.posted_messages
        · by_cases ht : now - md.timestamp ≤ EXPIRATION_WINDOW
          · rw [handle_callback_publish hl1 hl2 hm hc ht] at h ⊢
            simp only [Option.some.injEq] at h
            subst h
            exact ⟨md, rfl, hl2, hm, hc.2.1, hc.2.2, ht, rfl⟩
          · rw [handle_callback_late hl1 hl2 hm hc ht] at h; simp [noEffects] at h
        · rw [handle_callback_no_gate hl1 hl2 hm hc] at h; simp [noEffects] at h

/-- `posted_messages` only ever grows within one callback. -/
theorem handle_callback_posted_mono (s : BotState) (rmid uid now : Nat) {x : Nat}
    (hx : x ∈ s.posted_messages) :
    x ∈ (handle_callback s rmid uid now).1.posted_messages := by
  cases hl1 : lookupA s.reaction_messages rmid with
  | none => rw [handle_callback_no_prompt hl1]; exact hx
  | some orig =>
    cases hl2 : lookupA s.tracked orig with
    | none => rw [handle_callback_no_tracked hl1 hl2]; exact hx
    | some md =>
      by_cases hm : uid ∈ md.reactions
      · rw [handle_callback_duplicate hl1 hl2 hm]; exact hx
      · by_cases hc : REQUIRED_REACTIONS ≤ (uid :: md.reactions).length ∧
            md.posted = false ∧ orig ∉ s.posted_messages
        · by_cases ht : now - md.timestamp ≤ EXPIRATION_WINDOW
          · rw [handle_callback_publish hl1 hl2 hm hc ht]
            exact List.mem_cons_of_mem _ hx
          · rw [handle_callback_late hl1 hl2 hm hc ht]; exact hx
        · rw [handle_callback_no_gate hl1 hl2 hm hc]; exact hx

theorem handle_message_posted (s : BotState) (m : MsgIn) :
    (handle_message s m).posted_messages = s.posted_messages := by
  unfold handle_message
  split
  · rfl
  · split
    · rfl
    · split
      · rfl
      · rfl

theorem cleanup_posted (now : Nat) (s : BotState) :
    (cleanup_expired now s).posted_messages = s.posted_messages := rfl

/-! ### Lemmas: the run semantics and at-most-once dispatch -/

theorem step_posted_mono {s : BotState} {e : Event} {x : Nat}
    (hx : x ∈ s.posted_messages) : x ∈ (step s e).1.posted_messages := by
  cases e with
  | msg m => simpa [step, handle_message_posted] using hx
  | cb rmid uid now => exact handle_callback_posted_mono s rmid uid now hx
  | sweep now => simpa [step, cleanup_posted] using hx

theorem step_dispatch_fresh {s : BotState} {e : Event} {p : Nat}
    (h : (step s e).2 = some p) :
    p ∉ s.posted_messages ∧ p ∈ (step s e).1.posted_messages := by
  cases e with
  | msg m => simp [step] at h
  | cb rmid uid now =>
    simp only [step] at h ⊢
    obtain ⟨md, -, -, -, -, hfresh, -, hmark⟩ := handle_callback_dispatched h
    exact ⟨hfresh, by rw [hmark]; exact List.mem_cons_self _ _⟩
  | sweep now => simp [step] at h

/-- Once a post is in `posted_messages`, no later event dispatches it. -/
theorem dispatchCount_zero_of_posted (s : BotState) (es : List Event) (p : Nat)
    (hp : p ∈ s.posted_messages) : dispatchCount s es p = 0 := by
  induction es generalizing s with
  | nil => rfl
  | cons e es ih =>
    have hstep : (step s e).2 ≠ some p := fun h => (step_dispatch_fresh h).1 hp
    unfold dispatchCount runDispatches
    rw [List.count_append]
    have h2 : dispatchCount (step s e).1 es p = 0 := ih _ (step_posted_mono hp)
    unfold dispatchCount at h2
    rw [h2]
    cases hd : (step s e).2 with
    | none => rfl
    | some q =>
      have : q ≠ p := fun h => hstep (h ▸ hd)
      simp [List.count_cons, this]

end CrossPost

namespace CrossPost

/-- `handle_message` either ignores the message or tracks it verbatim. -/
theorem handle_message_eq (s : BotState) (m : MsgIn) :
    handle_message s m = s ∨
    ∃ t, m.text = some t ∧ t ≠ "" ∧ containsTopost t = true ∧
      handle_message s m =
        { s with
          tracked := insertA m.message_id (candidateData m t) s.tracked
          reaction_messages := insertA m.prompt_id m.message_id s.reaction_messages } := by
  unfold handle_message
  cases hmt : m.text with
  | none => left; rfl
  | some t =>
    by_cases h1 : t = ""
    · left; simp [h1]
    · by_cases h2 : containsTopost t = false
      · left; simp [h1, h2]
      · right
        refine ⟨t, rfl, h1, ?_, ?_⟩
        · revert h2; cases containsTopost t <;> simp
        · simp [h1, h2]

/-- The tracking branch of `handle_message`, explicitly. -/
theorem handle_message_track {s : BotState} {m : MsgIn} {t : String}
    (h1 : m.text = some t) (h2 : t ≠ "") (h3 : containsTopost t = true) :
    handle_message s m =
      { s with
        tracked := insertA m.message_id (candidateData m t) s.tracked
        reaction_messages := insertA m.prompt_id m.message_id s.reaction_messages } := by
  unfold handle_message
  rw [h1]
  simp [h2, h3]

end CrossPost

namespace CrossPost

/-! ### Lemmas: prompt-map soundness invariant -/

theorem promptInv_handle_message {s : BotState} (m : MsgIn) (h : promptInv s) :
    promptInv (handle_message s m) := by
  rcases handle_message_eq s m with heq | ⟨t, -, -, -, heq⟩
  · rw [heq]; exact h
  · rw [heq]
    intro q hq
    rcases List.mem_cons.mp hq with hq | hq
    · rw [hq]
      exact (lookupA_insertA_self m.message_id (candidateData m t) s.tracked) ▸ rfl
    · exact isSome_lookupA_insertA _ _ (h q (mem_eraseKey hq))

theorem promptInv_handle_callback {s : BotState} (rmid uid now : Nat) (h : promptInv s) :
    promptInv (handle_callback s rmid uid now).1 := by
  cases hl1 : lookupA s.reaction_messages rmid with
  | none => rw [handle_callback_no_prompt hl1]; exact h
  | some orig =>
    cases hl2 : lookupA s.tracked orig with
    | none => rw [handle_callback_no_tracked hl1 hl2]; exact h
    | some md =>
      by_cases hm : uid ∈ md.reactions
      · rw [handle_callback_duplicate hl1 hl2 hm]; exact h
      · by_cases hc : REQUIRED_REACTIONS ≤ (uid :: md.reactions).length ∧
            md.posted = false ∧ orig ∉ s.posted_messages
        · by_cases ht : now - md.timestamp ≤ EXPIRATION_WINDOW
          · rw [handle_callback_publish hl1 hl2 hm hc ht]
            intro q hq
            exact isSome_lookupA_insertA _ _ (isSome_lookupA_insertA _ _ (h q hq))
          · rw [handle_callback_late hl1 hl2 hm hc ht]
            intro q hq
            exact isSome_lookupA_insertA _ _ (h q hq)
        · rw [handle_callback_no_gate hl1 hl2 hm hc]
          intro q hq
          exact isSome_lookupA_insertA _ _ (h q hq)

theorem promptInv_cleanup {s : BotState} (now : Nat) (h : promptInv s) :
    promptInv (cleanup_expired now s) := by
  intro q hq
  simp only [cleanup_expired] at hq ⊢
  rcases (mem_dropVals (expiredIds now s.tracked) s.reaction_messages q).mp hq with ⟨hq1, hq2⟩
  have := h q hq1
  rw [lookupA_dropKeys, if_neg hq2]
  exact this

theorem promptInv_step {s : BotState} (e : Event) (h : promptInv s) :
    promptInv (step s e).1 := by
  cases e with
  | msg m => exact promptInv_handle_message m h
  | cb rmid uid now => exact promptInv_handle_callback rmid uid now h
  | sweep now => exact promptInv_cleanup now h

theorem promptInv_run (s : BotState) (es : List Event) (h : promptInv s) :
    promptInv (runState s es) := by
  induction es generalizing s with
  | nil => exact h
  | cons e es ih => exact ih _ (promptInv_step e h)

/-- Under the prompt-map invariant the callback's direct registry access
`self.tracked_messages[original_msg_id]` cannot raise. -/
theorem keyError_false_of_promptInv {s : BotState} (h : promptInv s) (rmid uid now : Nat) :
    (handle_callback s rmid uid now).2.keyError = false := by
  cases hl1 : lookupA s.reaction_messages rmid with
  | none => rw [handle_callback_no_prompt hl1]; rfl
  | some orig =>
    cases hl2 : lookupA s.tracked orig with
    | none =>
      have hmem := lookupA_mem hl1
      have := h (rmid, orig) hmem
      rw [hl2] at this
      simp at this
    | some md =>
      by_cases hm : uid ∈ md.reactions
      · rw [handle_callback_duplicate hl1 hl2 hm]; rfl
      · by_cases hc : REQUIRED_REACTIONS ≤ (uid :: md.reactions).length ∧
            md.posted = false ∧ orig ∉ s.posted_messages
        · by_cases ht : now - md.timestamp ≤ EXPIRATION_WINDOW
          · rw [handle_callback_publish hl1 hl2 hm hc ht]
          · rw [handle_callback_late hl1 hl2 hm hc ht]; rfl
        · rw [handle_callback_no_gate hl1 hl2 hm hc]; rfl

end CrossPost

namespace CrossPost

/-! ### Lemmas: timestamp stability and expired posts -/

/-- As long as no inbound message re-registers id `q`, no event changes the
creation timestamp recorded for `q` (callbacks only touch `reactions` and
`posted`; the sweep only deletes). -/
theorem step_timestamp {s : BotState} {e : Event} {q c : Nat}
    (hreg : registersMsgId q e = false)
    (h : ∀ md, lookupA s.tracked q = some md → md.timestamp = c) :
    ∀ md', lookupA (step s e).1.tracked q = some md' → md'.timestamp = c := by
  cases e with
  | msg m =>
    intro md' hmd'
    simp only [registersMsgId, decide_eq_false_iff_not] at hreg
    rcases handle_message_eq s m with heq | ⟨t, -, -, -, heq⟩
    · rw [show (step s (Event.msg m)).1 = handle_message s m from rfl, heq] at hmd'
      exact h md' hmd'
    · rw [show (step s (Event.msg m)).1 = handle_message s m from rfl, heq] at hmd'
      simp only at hmd'
      rw [lookupA_insertA_ne (fun he => hreg he) _ _] at hmd'
      exact h md' hmd'
  | cb rmid uid now =>
    intro md' hmd'
    simp only [step] at hmd'
    cases hl1 : lookupA s.reaction_messages rmid with
    | none => rw [handle_callback_no_prompt hl1] at hmd'; exact h md' hmd'
    | some orig =>
      cases hl2 : lookupA s.tracked orig with
      | none => rw [handle_callback_no_tracked hl1 hl2] at hmd'; exact h md' hmd'
      | some md =>
        by_cases hm : uid ∈ md.reactions
        · rw [handle_callback_duplicate hl1 hl2 hm] at hmd'; exact h md' hmd'
        · by_cases hc : REQUIRED_REACTIONS ≤ (uid :: md.reactions).length ∧
              md.posted = false ∧ orig ∉ s.posted_messages
          · by_cases ht : now - md.timestamp ≤ EXPIRATION_WINDOW
            · rw [handle_callback_publish hl1 hl2 hm hc ht] at hmd'
              simp only at hmd'
              by_cases ho : orig = q
              · rw [lookupA_insertA, if_pos ho] at hmd'
                cases hmd'
                exact h md (ho ▸ hl2)
              · rw [lookupA_insertA_ne ho, lookupA_insertA_ne ho] at hmd'
                exact h md' hmd'
            · rw [handle_callback_late hl1 hl2 hm hc ht] at hmd'
              simp only at hmd'
              by_cases ho : orig = q
              · rw [lookupA_insertA, if_pos ho] at hmd'
                cases hmd'
                exact h md (ho ▸ hl2)
              · rw [lookupA_insertA_ne ho] at hmd'
                exact h md' hmd'
          · rw [handle_callback_no_gate hl1 hl2 hm hc] at hmd'
            simp only at hmd'
            by_cases ho : orig = q
            · rw [lookupA_insertA, if_pos ho] at hmd'
              cases hmd'
              exact h md (ho ▸ hl2)
            · rw [lookupA_insertA_ne ho] at hmd'
              exact h md' hmd'
  | sweep now =>
    intro md' hmd'
    simp only [step, cleanup_expired] at hmd'
    rw [lookupA_dropKeys] at hmd'
    by_cases hx : q ∈ expiredIds now s.tracked
    · rw [if_pos hx] at hmd'; cases hmd'
    · rw [if_neg hx] at hmd'; exact h md' hmd'

/-- An event whose time lies strictly beyond the expiry window of post `q`
never dispatches `q`. -/
theorem step_no_dispatch_late {s : BotState} {e : Event} {q c : Nat}
    (h : ∀ md, lookupA s.tracked q = some md → md.timestamp = c)
    (ht : EXPIRATION_WINDOW + c < eventTime e) :
    (step s e).2 ≠ some q := by
  intro hd
  cases e with
  | msg m => simp [step] at hd
  | cb rmid uid now =>
    simp only [step] at hd
    obtain ⟨md, -, hl2, -, -, -, htime, -⟩ := handle_callback_dispatched hd
    have hts := h md hl2
    simp only [eventTime] at ht
    omega
  | sweep now => simp [step] at hd

/-- A post past its expiry window is never dispatched along any suffix of
events whose times stay beyond the window and which never re-register it. -/
theorem dispatchCount_zero_of_late (s : BotState) (es : List Event) (q c : Nat)
    (h : ∀ md, lookupA s.tracked q = some md → md.timestamp = c)
    (hes : ∀ e ∈ es, registersMsgId q e = false ∧ EXPIRATION_WINDOW + c < eventTime e) :
    dispatchCount s es q = 0 := by
  induction es generalizing s with
  | nil => rfl
  | cons e es ih =>
    obtain ⟨hreg, htime⟩ := hes e (List.mem_cons_self _ _)
    have hstep : (step s e).2 ≠ some q := step_no_dispatch_late h htime
    unfold dispatchCount runDispatches
    rw [List.count_append]
    have h2 : dispatchCount (step s e).1 es q = 0 :=
      ih _ (step_timestamp hreg h) (fun e' he' => hes e' (List.mem_cons_of_mem _ he'))
    unfold dispatchCount at h2
    rw [h2]
    cases hd : (step s e).2 with
    | none => rfl
    | some r =>
      have : r ≠ q := fun hrq => hstep (hrq ▸ hd)
      simp [List.count_cons, this]

end CrossPost

namespace CrossPost

/-! ### Claims -/

/-- C1: For every registry state, every sequence of approval, message and
sweep events, and every post, the cross-post fan-out (`cross_post`) is
triggered by at most one approval callback: once a post has been published
it enters `posted_messages`, which is never emptied, and the gate refuses a
second dispatch for it, regardless of how events interleave. -/
theorem C1_at_most_once_dispatch (s : BotState) (es : List Event) (p : Nat) :
    dispatchCount s es p ≤ 1 := by
  induction es generalizing s with
  | nil => exact Nat.zero_le 1
  | cons e es ih =>
    unfold dispatchCount runDispatches
    rw [List.count_append]
    cases hd : (step s e).2 with
    | none =>
      have h1 := ih (step s e).1
      unfold dispatchCount at h1
      simpa using h1
    | some q =>
      by_cases hq : q = p
      · subst hq
        have hmem := (step_dispatch_fresh hd).2
        have h0 := dispatchCount_zero_of_posted (step s e).1 es q hmem
        unfold dispatchCount at h0
        rw [h0]
        simp
      · have h1 := ih (step s e).1
        unfold dispatchCount at h1
        have hz : List.count p [q] = 0 := by simp [List.count_cons, hq]
        rw [hz]
        simpa using h1

/-- C10: from the empty initial registry, after any sequence of operations
every original-message id stored in `reaction_messages` is still a key of
`tracked_messages`, so the approval callback's direct lookup of the original
post (`self.tracked_messages[original_msg_id]`) can never raise. -/
theorem C10_prompt_map_sound (es : List Event) :
    promptInv (runState initialState es) ∧
    ∀ rmid uid now,
      (handle_callback (runState initialState es) rmid uid now).2.keyError = false := by
  have hInv : promptInv (runState initialState es) :=
    promptInv_run initialState es (fun q hq => absurd hq (List.not_mem_nil q))
  exact ⟨hInv, fun rmid uid now => keyError_false_of_promptInv hInv rmid uid now⟩

/-- C7: a repeated approval by a user already in a pending post's reaction
set is a complete no-op: the registry state is unchanged and neither the
threshold/expiry gate nor any edit or dispatch fires. -/
theorem C7_duplicate_approval_noop (s : BotState) (rmid uid now p : Nat) (md : MessageData)
    (h1 : lookupA s.reaction_messages rmid = some p)
    (h2 : lookupA s.tracked p = some md)
    (h3 : md.posted = false)
    (h4 : uid ∈ md.reactions) :
    handle_callback s rmid uid now = (s, noEffects) :=
  handle_callback_duplicate h1 h2 h4

theorem C7_witness :
    lookupA statePend.reaction_messages 5 = some 4 ∧
    lookupA statePend.tracked 4 = some mdPendingReacted ∧
    mdPendingReacted.posted = false ∧
    7 ∈ mdPendingReacted.reactions ∧
    handle_callback statePend 5 7 30 = (statePend, noEffects) :=
  ⟨by decide, by decide, by decide, by decide,
   C7_duplicate_approval_noop statePend 5 7 30 4 mdPendingReacted (by decide) (by decide)
     (by decide) (by decide)⟩

/-- C8: `cross_post` never propagates a fault to its caller: for every
fault-injection environment the dispatcher returns a value — either the
normal result of the `try` body, or, when the body raises, the single
generic crosspost-error notification produced by the boundary handler. -/
theorem C8_dispatch_never_raises (cfg : PlatformsConfig) (cl : Clients) (env : DispatchEnv)
    (md : MessageData) :
    (∃ r, cross_post_try cfg cl env md = Except.ok r ∧ cross_post cfg cl env md = r) ∨
    (∃ e, cross_post_try cfg cl env md = Except.error e ∧
      cross_post cfg cl env md =
        { notifications := [generalErrorNotification e], attempted := [],
          statuses := [] }) := by
  cases hr : cross_post_try cfg cl env md with
  | ok r =>
    left
    exact ⟨r, rfl, by unfold cross_post; rw [hr]⟩
  | error e =>
    right
    exact ⟨e, rfl, by unfold cross_post; rw [hr]⟩

end CrossPost

namespace CrossPost

/-- C2 counterexample: post 1 (created at time 0, prompt 2) receives its
threshold-reaching approval at time 121, strictly past the 120-minute window.
The claim says the post transitions to `Expired` and the operation yields
`ExpiredAtThreshold`; in the code nothing of the sort happens — the callback
produces no outcome at all (`noEffects`: no dispatch, no edit, no
notification) and the post stays in the registry still pending
(`posted = false`), with the approval recorded. -/
theorem C2_counterexample :
    (handle_callback (handle_message initialState msg1) 2 7 121).2 = noEffects ∧
    ((lookupA (handle_callback (handle_message initialState msg1) 2 7 121).1.tracked 1).map
      (fun md => (md.posted, md.reactions))) = some (false, [7]) := by
  decide

/-- C2 (amended): when a pending post's approval count reaches the threshold
strictly after the expiry window, the callback dispatches nothing and makes
no change other than recording the approver (the post stays tracked and
pending until the sweep removes it); and provided the wall clock never runs
backwards past that moment and the post's id is not re-registered, no later
event ever dispatches it — the post is never published. -/
theorem C2_expired_at_threshold_never_published (s : BotState) (rmid uid now p : Nat)
    (md : MessageData) (es : List Event)
    (h1 : lookupA s.reaction_messages rmid = some p)
    (h2 : lookupA s.tracked p = some md)
    (h3 : uid ∉ md.reactions)
    (h4 : md.posted = false)
    (h5 : EXPIRATION_WINDOW < now - md.timestamp)
    (h6 : ∀ e ∈ es, registersMsgId p e = false ∧ now ≤ eventTime e) :
    (handle_callback s rmid uid now).2 = noEffects ∧
    lookupA (handle_callback s rmid uid now).1.tracked p =
      some { md with reactions := uid :: md.reactions } ∧
    dispatchCount s (Event.cb rmid uid now :: es) p = 0 := by
  have ht : ¬ now - md.timestamp ≤ EXPIRATION_WINDOW := by omega
  have hcb : handle_callback s rmid uid now =
      ({ s with tracked := insertA p { md with reactions := uid :: md.reactions } s.tracked },
       noEffects) := by
    by_cases hc : REQUIRED_REACTIONS ≤ (uid :: md.reactions).length ∧ md.posted = false ∧
        p ∉ s.posted_messages
    · exact handle_callback_late h1 h2 h3 hc ht
    · exact handle_callback_no_gate h1 h2 h3 hc
  refine ⟨by rw [hcb], by rw [hcb]; exact lookupA_insertA_self _ _ _, ?_⟩
  unfold dispatchCount runDispatches
  have hstep : (step s (Event.cb rmid uid now)).2 = none := by
    simp only [step, hcb]
    rfl
  rw [hstep, List.count_append]
  have hrest : dispatchCount (step s (Event.cb rmid uid now)).1 es p = 0 := by
    apply dispatchCount_zero_of_late _ _ _ md.timestamp
    · intro md' hmd'
      simp only [step, hcb] at hmd'
      by_cases hq : p = p
      · rw [lookupA_insertA, if_pos hq] at hmd'
        cases hmd'
        rfl
      · exact absurd rfl hq
    · intro e he
      obtain ⟨hr, htime⟩ := h6 e he
      exact ⟨hr, by omega⟩
  unfold dispatchCount at hrest
  rw [hrest]
  rfl

theorem C2_witness :
    lookupA statePendFresh.reaction_messages 5 = some 4 ∧
    lookupA statePendFresh.tracked 4 = some mdPending ∧
    8 ∉ mdPending.reactions ∧
    mdPending.posted = false ∧
    EXPIRATION_WINDOW < 121 - mdPending.timestamp ∧
    (∀ e ∈ lateEvents, registersMsgId 4 e = false ∧ 121 ≤ eventTime e) ∧
    ((handle_callback statePendFresh 5 8 121).2 = noEffects ∧
      lookupA (handle_callback statePendFresh 5 8 121).1.tracked 4 =
        some { mdPending with reactions := 8 :: mdPending.reactions } ∧
      dispatchCount statePendFresh (Event.cb 5 8 121 :: lateEvents) 4 = 0) :=
  ⟨by decide, by decide, by decide, by decide, by decide, by decide,
   C2_expired_at_threshold_never_published statePendFresh 5 8 121 4 mdPending lateEvents
     (by decide) (by decide) (by decide) (by decide) (by decide) (by decide)⟩

end CrossPost

namespace CrossPost

/-- When media resolution does not fault (or there is no media), the `try`
body runs to completion and the status list is exactly one line per enabled
platform, in the source's fixed order. -/
theorem cross_post_try_ok {cfg : PlatformsConfig} {cl : Clients} {env : DispatchEnv}
    {md : MessageData} (h : md.media = none ∨ env.resolveFault = none) :
    cross_post_try cfg cl env md =
      Except.ok
        { notifications := [startNotification,
            reportNotification ((enabledPlatforms cfg cl).map
              (fun p => statusLine p (env.fault p)))]
          attempted := enabledPlatforms cfg cl
          statuses := (enabledPlatforms cfg cl).map
            (fun p => statusLine p (env.fault p)) } := by
  have hred :
      cross_post_try cfg cl env md =
        Except.ok
          { notifications := [startNotification, reportNotification
              (((if cfg.farcaster && cl.farcaster then
                    ([statusLine Platform.farcaster env.farcasterFault],
                     [Platform.farcaster])
                  else ([], [])).1 ++
                 (if cfg.twitter && cl.twitter then
                    [statusLine Platform.twitter env.twitterFault] else []) ++
                 (if cfg.bluesky && cl.bluesky then
                    [statusLine Platform.bluesky env.blueskyFault] else [])))]
            attempted :=
              ((if cfg.farcaster && cl.farcaster then
                  ([statusLine Platform.farcaster env.farcasterFault], [Platform.farcaster])
                else ([], [])).2 ++
                (if cfg.twitter && cl.twitter then [Platform.twitter] else []) ++
                (if cfg.bluesky && cl.bluesky then [Platform.bluesky] else []))
            statuses :=
              ((if cfg.farcaster && cl.farcaster then
                  ([statusLine Platform.farcaster env.farcasterFault], [Platform.farcaster])
                else ([], [])).1 ++
                (if cfg.twitter && cl.twitter then
                  [statusLine Platform.twitter env.twitterFault] else []) ++
                (if cfg.bluesky && cl.bluesky then
                  [statusLine Platform.bluesky env.blueskyFault] else [])) } := by
    unfold cross_post_try
    rcases h with h | h <;> rw [h] <;>
      by_cases hf : (cfg.farcaster && cl.farcaster) = true <;>
      by_cases htw : (cfg.twitter && cl.twitter) = true <;>
      by_cases hbl : (cfg.bluesky && cl.bluesky) = true <;>
      · cases hm : md.media <;> simp [hf, htw, hbl]
  rw [hred]
  by_cases hf : (cfg.farcaster && cl.farcaster) = true <;>
    by_cases htw : (cfg.twitter && cl.twitter) = true <;>
    by_cases hbl : (cfg.bluesky && cl.bluesky) = true <;>
    simp [enabledPlatforms, platformEnabled, List.filter, hf, htw, hbl, DispatchEnv.fault]

/-- When media resolution faults on a post that has media, the `try` body
raises before any platform is attempted. -/
theorem cross_post_try_err {cfg : PlatformsConfig} {cl : Clients} {env : DispatchEnv}
    {md : MessageData} {x : Media} {e : String}
    (h1 : md.media = some x) (h2 : env.resolveFault = some e) :
    cross_post_try cfg cl env md = Except.error e := by
  unfold cross_post_try
  rw [h1, h2]

end CrossPost

namespace CrossPost

/-- C3: when media resolution does not intervene, the dispatch report has
exactly one line per enabled publisher, in the source's fixed order
(Farcaster, Twitter, Bluesky); a failing publisher's line is the `❌` line
carrying its reason truncated to at most 100 characters, a succeeding one the
`✅` line; and the list of attempted publishers is the full enabled list no
matter which publishers fault. -/
theorem C3_report_per_publisher (cfg : PlatformsConfig) (cl : Clients) (env : DispatchEnv)
    (md : MessageData) (h : md.media = none ∨ env.resolveFault = none) :
    (cross_post cfg cl env md).statuses =
      (enabledPlatforms cfg cl).map (fun p => statusLine p (env.fault p)) ∧
    (cross_post cfg cl env md).statuses.length = (enabledPlatforms cfg cl).length ∧
    (cross_post cfg cl env md).attempted = enabledPlatforms cfg cl ∧
    (∀ p, env.fault p = none →
      statusLine p (env.fault p) = "✅ " ++ p.name ++ ": Successfully posted") ∧
    (∀ p e, env.fault p = some e →
      statusLine p (env.fault p) = "❌ " ++ p.name ++ ": Error - " ++ pyTake 100 e ∧
        (pyTake 100 e).length ≤ 100) := by
  have hok := @cross_post_try_ok cfg cl env md h
  have hcp : cross_post cfg cl env md =
      { notifications := [startNotification,
          reportNotification ((enabledPlatforms cfg cl).map
            (fun p => statusLine p (env.fault p)))]
        attempted := enabledPlatforms cfg cl
        statuses := (enabledPlatforms cfg cl).map (fun p => statusLine p (env.fault p)) } := by
    unfold cross_post
    rw [hok]
  refine ⟨by rw [hcp], by rw [hcp]; exact List.length_map _ _, by rw [hcp], ?_, ?_⟩
  · intro p hp
    rw [hp]
    rfl
  · intro p e he
    refine ⟨by rw [he]; rfl, ?_⟩
    have hlen : (pyTake 100 e).length = (e.data.take 100).length := rfl
    rw [hlen, List.length_take]
    exact Nat.min_le_left _ _

theorem C3_witness :
    (mdPublished.media = none ∨ envTwitterTimeout.resolveFault = none) ∧
    ((cross_post cfgAll clAll envTwitterTimeout mdPublished).statuses =
      (enabledPlatforms cfgAll clAll).map
        (fun p => statusLine p (envTwitterTimeout.fault p)) ∧
    (cross_post cfgAll clAll envTwitterTimeout mdPublished).statuses.length =
      (enabledPlatforms cfgAll clAll).length ∧
    (cross_post cfgAll clAll envTwitterTimeout mdPublished).attempted =
      enabledPlatforms cfgAll clAll ∧
    (∀ p, envTwitterTimeout.fault p = none →
      statusLine p (envTwitterTimeout.fault p) = "✅ " ++ p.name ++ ": Successfully posted") ∧
    (∀ p e, envTwitterTimeout.fault p = some e →
      statusLine p (envTwitterTimeout.fault p) =
          "❌ " ++ p.name ++ ": Error - " ++ pyTake 100 e ∧
        (pyTake 100 e).length ≤ 100)) :=
  ⟨Or.inl (by decide),
   C3_report_per_publisher cfgAll clAll envTwitterTimeout mdPublished (Or.inl (by decide))⟩

/-- C6 counterexample: all three publishers are enabled, the post has a photo
reference, and media resolution fails (`boom`).  The claim says the dispatch
still proceeds text-only to every enabled publisher; in the code the
`get_file` fault escapes to the boundary handler, so no publisher is
attempted at all and the only notification is the generic error line. -/
theorem C6_counterexample :
    cross_post cfgAll clAll envResolveBoom mdWithMedia =
      { notifications := ["❌ General crosspost error: boom"], attempted := [],
        statuses := [] } ∧
    enabledPlatforms cfgAll clAll =
      [Platform.farcaster, Platform.twitter, Platform.bluesky] := by
  decide

/-- C6 (amended): if resolving the media reference of a post that has one
fails, the whole dispatch is aborted: no publisher is invoked, no report is
assembled, and the only notification is the single generic crosspost-error
line (the fault is contained, not propagated). -/
theorem C6_media_failure_aborts_dispatch (cfg : PlatformsConfig) (cl : Clients)
    (env : DispatchEnv) (md : MessageData) (x : Media) (e : String)
    (h1 : md.media = some x) (h2 : env.resolveFault = some e) :
    cross_post cfg cl env md =
      { notifications := [generalErrorNotification e], attempted := [], statuses := [] } := by
  unfold cross_post
  rw [cross_post_try_err h1 h2]

theorem C6_witness :
    mdWithMedia.media = some ⟨MediaKind.photo, 3⟩ ∧
    envResolveBoom.resolveFault = some "boom" ∧
    cross_post cfgAll clAll envResolveBoom mdWithMedia =
      { notifications := [generalErrorNotification "boom"], attempted := [],
        statuses := [] } :=
  ⟨by decide, by decide,
   C6_media_failure_aborts_dispatch cfgAll clAll envResolveBoom mdWithMedia
     ⟨MediaKind.photo, 3⟩ "boom" (by decide) (by decide)⟩

end CrossPost

namespace CrossPost

/-- C4 counterexample: post 1 in `statePub` is `Published` (`posted = true`)
and 121 minutes old.  The claim says the sweep removes no published post; the
code's sweep checks only age, so it removes post 1. -/
theorem C4_counterexample :
    (lookupA statePub.tracked 1).map (fun md => md.posted) = some true ∧
    lookupA (cleanup_expired 121 statePub).tracked 1 = none := by
  decide

/-- C4 (amended): each sweep run removes from the registry exactly the
tracked posts whose age strictly exceeds the expiry window — pending and
published alike — together with every prompt mapping pointing at a removed
post, and keeps every post whose age is within the window. -/
theorem C4_sweep_removes_exactly_old (s : BotState) (now : Nat)
    (hN : (s.tracked.map Prod.fst).Nodup) :
    (∀ pr, pr ∈ s.tracked →
      (pr ∈ (cleanup_expired now s).tracked ↔ now - pr.2.timestamp ≤ EXPIRATION_WINDOW)) ∧
    (∀ q, q ∈ (cleanup_expired now s).reaction_messages ↔
      q ∈ s.reaction_messages ∧ q.2 ∉ expiredIds now s.tracked) := by
  constructor
  · intro pr hpr
    simp only [cleanup_expired]
    rw [mem_dropKeys]
    constructor
    · rintro ⟨-, hnx⟩
      by_contra hgt
      push_neg at hgt
      exact hnx (mem_expiredIds.mpr ⟨pr, hpr, rfl, hgt⟩)
    · intro hle
      refine ⟨hpr, fun hx => ?_⟩
      rcases mem_expiredIds.mp hx with ⟨pr', hpr', hk, hold⟩
      have heq := keys_nodup_eq hN hpr' hpr hk
      rw [heq] at hold
      omega
  · intro q
    simp only [cleanup_expired]
    exact mem_dropVals _ _ q

theorem C4_witness :
    (statePub.tracked.map Prod.fst).Nodup ∧
    ((∀ pr, pr ∈ statePub.tracked →
      (pr ∈ (cleanup_expired 121 statePub).tracked ↔
        121 - pr.2.timestamp ≤ EXPIRATION_WINDOW)) ∧
    (∀ q, q ∈ (cleanup_expired 121 statePub).reaction_messages ↔
      q ∈ statePub.reaction_messages ∧ q.2 ∉ expiredIds 121 statePub.tracked)) :=
  ⟨by decide, C4_sweep_removes_exactly_old statePub 121 (by decide)⟩

/-- C5 counterexample: post 1 in `statePub` is already published with
approvals `{7}`.  The claim says a late approval leaves the approvals set and
all registry state unchanged; in the code the membership test at the top of
the callback runs before the `posted` check, so the new approver 8 is still
inserted into the post's reaction set. -/
theorem C5_counterexample :
    (lookupA statePub.tracked 1).map (fun md => md.reactions) = some [7] ∧
    ((lookupA (handle_callback statePub 2 8 10).1.tracked 1).map
      (fun md => md.reactions)) = some [8, 7] := by
  decide

/-- C5 (amended): an approval by a new approver on an already-published post
triggers no dispatch, no edit and no notification, and changes nothing in
the registry except inserting the approver into that post's approvals set:
`posted_messages`, `reaction_messages` and every other tracked post are
untouched. -/
theorem C5_already_published_records_approver (s : BotState) (rmid uid now p : Nat)
    (md : MessageData)
    (h1 : lookupA s.reaction_messages rmid = some p)
    (h2 : lookupA s.tracked p = some md)
    (h3 : md.posted = true)
    (h4 : uid ∉ md.reactions) :
    (handle_callback s rmid uid now).2 = noEffects ∧
    (handle_callback s rmid uid now).1.posted_messages = s.posted_messages ∧
    (handle_callback s rmid uid now).1.reaction_messages = s.reaction_messages ∧
    lookupA (handle_callback s rmid uid now).1.tracked p =
      some { md with reactions := uid :: md.reactions } ∧
    (∀ q, q ≠ p →
      lookupA (handle_callback s rmid uid now).1.tracked q = lookupA s.tracked q) := by
  have hc : ¬ (REQUIRED_REACTIONS ≤ (uid :: md.reactions).length ∧ md.posted = false ∧
      p ∉ s.posted_messages) := by
    rintro ⟨-, hfalse, -⟩
    rw [h3] at hfalse
    exact Bool.noConfusion hfalse
  have hcb := @handle_callback_no_gate s rmid uid now p md h1 h2 h4 hc
  rw [hcb]
  exact ⟨rfl, rfl, rfl, lookupA_insertA_self _ _ _,
    fun q hq => lookupA_insertA_ne (fun he => hq he.symm) _ _⟩

theorem C5_witness :
    lookupA statePub.reaction_messages 2 = some 1 ∧
    lookupA statePub.tracked 1 = some mdPublished ∧
    mdPublished.posted = true ∧
    8 ∉ mdPublished.reactions ∧
    ((handle_callback statePub 2 8 10).2 = noEffects ∧
    (handle_callback statePub 2 8 10).1.posted_messages = statePub.posted_messages ∧
    (handle_callback statePub 2 8 10).1.reaction_messages = statePub.reaction_messages ∧
    lookupA (handle_callback statePub 2 8 10).1.tracked 1 =
      some { mdPublished with reactions := 8 :: mdPublished.reactions } ∧
    (∀ q, q ≠ 1 →
      lookupA (handle_callback statePub 2 8 10).1.tracked q = lookupA statePub.tracked q)) :=
  ⟨by decide, by decide, by decide, by decide,
   C5_already_published_records_approver statePub 2 8 10 1 mdPublished
     (by decide) (by decide) (by decide) (by decide)⟩

/-- C9 counterexample: `msg1` (id 1, created at 0) is tracked; `msg1Again`
re-registers the same id 1 at time 50.  The claim says the second
registration fails with `DuplicateId` and leaves the existing entry
unchanged; in the code there is no duplicate check and the entry is simply
replaced — its timestamp changes from 0 to 50. -/
theorem C9_counterexample :
    (lookupA (handle_message initialState msg1).tracked 1).map
      (fun md => md.timestamp) = some 0 ∧
    (lookupA (handle_message (handle_message initialState msg1) msg1Again).tracked 1).map
      (fun md => md.timestamp) = some 50 := by
  decide

/-- C9 (amended): registering a tagged candidate under an id that is already
tracked does not fail: the existing `TrackedPost` entry is overwritten by the
fresh candidate (empty approvals, new timestamp, `posted = false`) and the
new prompt mapping is stored. -/
theorem C9_duplicate_id_overwrites (s : BotState) (m : MsgIn) (t : String)
    (h1 : m.text = some t) (h2 : t ≠ "") (h3 : containsTopost t = true)
    (h4 : (lookupA s.tracked m.message_id).isSome = true) :
    lookupA (handle_message s m).tracked m.message_id = some (candidateData m t) ∧
    lookupA (handle_message s m).reaction_messages m.prompt_id = some m.message_id := by
  rw [handle_message_track h1 h2 h3]
  exact ⟨lookupA_insertA_self _ _ _, lookupA_insertA_self _ _ _⟩

theorem C9_witness :
    msg1Again.text = some "bye #topost" ∧
    "bye #topost" ≠ "" ∧
    containsTopost "bye #topost" = true ∧
    (lookupA (handle_message initialState msg1).tracked msg1Again.message_id).isSome = true ∧
    (lookupA (handle_message (handle_message initialState msg1) msg1Again).tracked
        msg1Again.message_id = some (candidateData msg1Again "bye #topost") ∧
      lookupA (handle_message (handle_message initialState msg1) msg1Again).reaction_messages
        msg1Again.prompt_id = some msg1Again.message_id) :=
  ⟨by decide, by decide, by decide, by decide,
   C9_duplicate_id_overwrites (handle_message initialState msg1) msg1Again "bye #topost"
     (by decide) (by decide) (by decide) (by decide)⟩

end CrossPost
